import Mathlib

/-!
Shallow embedding of the asynchronous job lifecycle and queue-admission
subsystem of the chubby-meme-backend service.

Source files embedded:
 - `src/utils/redis_utils.py` (class `RedisService`: `add_job`,
   `get_job_status`, `update_job_status`, `cleanup_stale_jobs`,
   `get_queue_length`, `store_meme_data`, `get_meme_data`, and the
   constants `JOB_STATUS`, `QUEUE_CONFIG`);
 - `src/app.py` (`generate_meme_endpoint`, the `POST /api/generate-meme`
   handler).

Modelling conventions:
 - The Redis store is a state record `St`: a partial map `jobs` for the
   `job:<id>` namespace, a partial map `memes` for the `meme:<id>`
   namespace, and a list `active` for the `active_jobs` set.
 - Timestamps (`datetime.utcnow()`) are integers (seconds); ISO strings
   that may fail `datetime.fromisoformat` are modelled by
   `Option (Option Int)`: `none` = field missing from the JSON record,
   `some none` = present but unparseable, `some (some t)` = parses to `t`.
 - A key-level Redis TTL is carried on the record (`none` = key has no
   expiry, i.e. Redis `ttl` returns -1).
 - Fallible Redis I/O (a raised exception caught by the Python
   `except` blocks) is modelled by explicit boolean oracles: `putOk` for
   the `setex` in `add_job`, `countFails` for the `scard` read in
   `get_queue_length`.  A failing call performs no mutation, matching the
   exception path of the source.
-/

namespace ChubbyMeme

/-- The request body of `POST /api/generate-meme` (`MemeRequest` in
`src/app.py`): persona/theme prompts, char limit, emoji flag, meme kind. -/
structure MemeReq where
  personaPrompt : String
  themePrompt : String
  charLimit : Int
  allowEmojis : Bool
  reqKind : String
  deriving Repr, DecidableEq

/-- One entry of a job record's `status_history` list
(`redis_utils.py`, `add_job` / `update_job_status`). -/
structure HistEntry where
  status : String
  timestamp : Int
  error : Option String := none
  message : Option String := none
  deriving Repr, DecidableEq

/-- The artifact record stored under `meme:<id>`
(`redis_utils.py`, `store_meme_data`).  Fields are optional because the
input dictionary may lack them; `store_meme_data` validates the required
ones (`imageUrl`, `type`, `memeId`). -/
structure MemeRecord where
  imageUrl : Option String := none
  mimeKind : Option String := none
  memeId : Option String := none
  publicUrl : Option String := none
  created_at : Option Int := none
  ttlField : Option Int := none
  deriving Repr, DecidableEq

/-- The job record stored under `job:<id>`.  `keyTtl` is the key-level
Redis TTL (`none` = no expiry).  `created_at : Option (Option Int)`
models the ISO-string field as described in the header comment. -/
structure JobRecord where
  status : String
  created_at : Option (Option Int) := none
  updated_at : Option Int := none
  status_history : List HistEntry := []
  error : Option String := none
  stage : Option String := none
  task_id : Option String := none
  cleanup_time : Option Int := none
  result : Option MemeRecord := none
  request : Option MemeReq := none
  keyTtl : Option Int := none
  deriving Repr, DecidableEq

/-- The `additional_data` dictionary passed to `update_job_status`:
each `some` field is a key present in the dictionary and overwrites the
record's field on merge (`job_data.update(additional_data)`). -/
structure AddData where
  error : Option String := none
  stage : Option String := none
  task_id : Option String := none
  cleanup_time : Option Int := none
  result : Option MemeRecord := none
  deriving Repr, DecidableEq

/-- The Redis store state: `job:<id>` namespace, `meme:<id>` namespace,
and the `active_jobs` set (as a list of its members). -/
structure St where
  jobs : String → Option JobRecord
  memes : String → Option MemeRecord
  active : List String

/-- `JOB_STATUS` constant dictionary (`redis_utils.py` lines 14-19). -/
def JOB_QUEUED : String := "queued"

/-- `JOB_STATUS["PROCESSING"]`. -/
def JOB_PROCESSING : String := "processing"

/-- `JOB_STATUS["COMPLETED"]`. -/
def JOB_COMPLETED : String := "completed"

/-- `JOB_STATUS["FAILED"]`. -/
def JOB_FAILED : String := "failed"

/-- `QUEUE_CONFIG['default_timeout']` = 300 seconds. -/
def default_timeout : Int := 300

/-- `QUEUE_CONFIG['max_retries']` = 3. -/
def max_retries : Nat := 3

/-- `QUEUE_CONFIG['retry_delay']` = 60 seconds. -/
def retry_delay : Int := 60

/-- `QUEUE_CONFIG['job_ttl']` = 24 hours in seconds. -/
def job_ttl : Int := 24 * 60 * 60

/-- `QUEUE_CONFIG['result_ttl']` = 24 hours in seconds. -/
def result_ttl : Int := 24 * 60 * 60

/-- `datetime.min` as epoch seconds (year 1), the sentinel
`cleanup_stale_jobs` substitutes for an unparseable `created_at`. -/
def datetimeMin : Int := -62135596800

/-- `datetime.fromisoformat('2000-01-01T00:00:00')` as epoch seconds,
the default `cleanup_stale_jobs` uses when `created_at` is missing. -/
def t2000 : Int := 946684800

/-- Redis `SREM active_jobs id`: remove `id` from the set. -/
def srem (s : St) (id : String) : St :=
  { s with active := s.active.filter (fun x => x ≠ id) }

/-- Redis `SADD active_jobs id`: add `id` to the set (no duplicates). -/
def sadd (s : St) (id : String) : St :=
  if s.active.contains id then s else { s with active := id :: s.active }

/-- Write `r` under `job:<id>` with key TTL `t` (Redis `SETEX`). -/
def setexJob (s : St) (id : String) (t : Int) (r : JobRecord) : St :=
  { s with jobs := fun k => if k = id then some { r with keyTtl := some t } else s.jobs k }

/-- Redis `TTL job:<id>` as seen by `update_job_status` for a record `r`
that was just read: -1 when the key has no expiry, else the remaining
TTL. -/
def ttlOf (r : JobRecord) : Int :=
  match r.keyTtl with
  | none => -1
  | some t => t

/-- `RedisService.get_job_status` (`redis_utils.py` 74-88): read the
record under `job:<id>`, `None` when absent. -/
def get_job_status (s : St) (id : String) : Option JobRecord :=
  s.jobs id

/-- `RedisService.get_queue_length` (`redis_utils.py` 190-198):
`SCARD active_jobs`, with the `except` branch returning 0 when the read
fails (`countFails = true`). -/
def get_queue_length (countFails : Bool) (s : St) : Nat :=
  if countFails then 0 else s.active.length

/-- `RedisService.add_job` (`redis_utils.py` 42-72): overwrite the
caller's `job_data` with `created_at = now`, status QUEUED and a fresh
one-entry `status_history`, `SETEX` it under `job:<id>` with
`job_ttl`, then `SADD` the id into `active_jobs`.  `putOk = false`
models the exception path: no mutation, returns `False`. -/
def add_job (putOk : Bool) (now : Int) (id : String) (req : MemeReq) (s : St) :
    Bool × St :=
  if putOk then
    let r : JobRecord :=
      { status := JOB_QUEUED
        created_at := some (some now)
        status_history := [{ status := JOB_QUEUED, timestamp := now,
                             message := some "Job added to queue" }]
        request := some req }
    (true, sadd (setexJob s id job_ttl r) id)
  else
    (false, s)

/-- `RedisService.update_job_status` (`redis_utils.py` 90-143): read the
record (absent → `False`, no mutation); set `status` and `updated_at`;
append a history entry carrying `error` when `additional_data` has one;
merge `additional_data` into the record; write back with the remaining
key TTL, substituting `job_ttl` when that is negative; if the target
status is COMPLETED or FAILED, `SREM` the id from `active_jobs`. -/
def update_job_status (now : Int) (id : String) (status : String)
    (ad : Option AddData) (s : St) : Bool × St :=
  match s.jobs id with
  | none => (false, s)
  | some r =>
    let entry : HistEntry :=
      { status := status, timestamp := now
        error := match ad with
                 | some a => a.error
                 | none => none }
    let r1 : JobRecord :=
      { r with status := status
               updated_at := some now
               status_history := r.status_history ++ [entry] }
    let r2 : JobRecord :=
      match ad with
      | none => r1
      | some a =>
        { r1 with error := a.error.orElse (fun _ => r1.error)
                  stage := a.stage.orElse (fun _ => r1.stage)
                  task_id := a.task_id.orElse (fun _ => r1.task_id)
                  cleanup_time := a.cleanup_time.orElse (fun _ => r1.cleanup_time)
                  result := a.result.orElse (fun _ => r1.result) }
    let t : Int := if ttlOf r < 0 then job_ttl else ttlOf r
    let s1 := setexJob s id t r2
    let s2 := if status = JOB_COMPLETED ∨ status = JOB_FAILED then srem s1 id else s1
    (true, s2)

/-- The effective `created_at` used by `cleanup_stale_jobs`
(`redis_utils.py` 165-169): missing field → default year-2000 string,
unparseable → `datetime.min`, else the parsed value. -/
def effCreated (r : JobRecord) : Int :=
  match r.created_at with
  | none => t2000
  | some none => datetimeMin
  | some (some t) => t

/-- Whether one reaper pass over `id` counts it as cleaned: record
absent, or `created_at < cutoff` (`cutoff = now - maxAge`). -/
def isCleaned (now maxAge : Int) (s : St) (id : String) : Bool :=
  match s.jobs id with
  | none => true
  | some r => decide (effCreated r < now - maxAge)

/-- The `additional_data` dictionary `cleanup_stale_jobs` passes to
`update_job_status` when force-failing a stale job
(`redis_utils.py` 176-179). -/
def reaperData (now : Int) : AddData :=
  { error := some "Job timed out", cleanup_time := some now }

/-- The body of the `for job_id in active_jobs` loop of
`cleanup_stale_jobs` (`redis_utils.py` 155-181), threading the cleaned
count and the store state. -/
def cleanupStep (now maxAge : Int) (acc : Nat × St) (id : String) : Nat × St :=
  let (cnt, s) := acc
  match s.jobs id with
  | none => (cnt + 1, srem s id)
  | some r =>
    if effCreated r < now - maxAge then
      (cnt + 1, (update_job_status now id JOB_FAILED (some (reaperData now)) s).2)
    else
      (cnt, s)

/-- `RedisService.cleanup_stale_jobs` (`redis_utils.py` 145-188): fold
the loop body over the `SMEMBERS active_jobs` snapshot taken at entry,
returning the cleaned count and the final state. -/
def cleanup_stale_jobs (now maxAge : Int) (s : St) : Nat × St :=
  s.active.foldl (cleanupStep now maxAge) (0, s)

/-- Required-field check of `store_meme_data` / `get_meme_data`
(`redis_utils.py` 213-217, 244-249): `imageUrl`, `type`, `memeId` must
all be present. -/
def hasRequiredFields (m : MemeRecord) : Bool :=
  m.imageUrl.isSome && m.mimeKind.isSome && m.memeId.isSome

/-- `RedisService.store_meme_data` (`redis_utils.py` 200-231): default
the TTL to `result_ttl`, stamp `created_at` and `ttl` into the record,
reject (no write) when a required field is missing, else `SETEX` under
`meme:<id>`. -/
def store_meme_data (now : Int) (id : String) (m : MemeRecord)
    (ttlArg : Option Int) (s : St) : Bool × St :=
  let t : Int := match ttlArg with
                 | none => result_ttl
                 | some v => v
  let m1 : MemeRecord := { m with created_at := some now, ttlField := some t }
  if hasRequiredFields m1 then
    (true, { s with memes := fun k => if k = id then some m1 else s.memes k })
  else
    (false, s)

/-- `RedisService.get_meme_data` (`redis_utils.py` 233-255): read the
record under `meme:<id>`; absent → `None`; a record missing a required
field is also treated as absent. -/
def get_meme_data (s : St) (id : String) : Option MemeRecord :=
  match s.memes id with
  | none => none
  | some m => if hasRequiredFields m then some m else none

/-- The outcome of one `POST /api/generate-meme` call: the HTTP status
code of the response, the `job_id` returned (accept path only), and
whether `generate_meme.delay` was invoked (a Celery task dispatched). -/
structure EndpointOut where
  statusCode : Nat
  job_id : Option String
  dispatched : Bool
  deriving Repr, DecidableEq

/-- `generate_meme_endpoint` (`src/app.py` 109-167): read the queue
length (logged), run one `cleanup_stale_jobs(1800)` sweep, re-read the
queue length; reject 503 when it exceeds 100; else `add_job` (failure →
the raised `HTTPException` is caught and a 500 "Failed to start job"
response is returned, nothing dispatched); else dispatch the Celery task
and record its id via `update_job_status(job_id, QUEUED, {task_id})`,
answering 200 with the job id. -/
def generate_meme_endpoint (countFails putOk : Bool) (now : Int)
    (jobId taskId : String) (req : MemeReq) (s : St) : EndpointOut × St :=
  let _qlen0 := get_queue_length countFails s
  let s1 := (cleanup_stale_jobs now 1800 s).2
  let qlen := get_queue_length countFails s1
  if qlen > 100 then
    ({ statusCode := 503, job_id := none, dispatched := false }, s1)
  else
    let (ok, s2) := add_job putOk now jobId req s1
    if ok then
      let s3 := (update_job_status now jobId JOB_QUEUED
                  (some { task_id := some taskId }) s2).2
      ({ statusCode := 200, job_id := some jobId, dispatched := true }, s3)
    else
      ({ statusCode := 500, job_id := none, dispatched := false }, s2)

/-- Length of a record's `status_history`, with 0 for an absent
record. -/
def histLen (o : Option JobRecord) : Nat :=
  match o with
  | none => 0
  | some r => r.status_history.length

/-- The record `update_job_status` writes back for a prior record `r`:
status and `updated_at` set, history extended, `additional_data` merged,
key TTL refreshed.  Characterizes the `some` branch of the source. -/
def updatedRecord (now : Int) (status : String) (ad : Option AddData)
    (r : JobRecord) : JobRecord :=
  let entry : HistEntry :=
    { status := status, timestamp := now
      error := match ad with
               | some a => a.error
               | none => none }
  let r1 : JobRecord :=
    { r with status := status
             updated_at := some now
             status_history := r.status_history ++ [entry] }
  let r2 : JobRecord :=
    match ad with
    | none => r1
    | some a =>
      { r1 with error := a.error.orElse (fun _ => r1.error)
                stage := a.stage.orElse (fun _ => r1.stage)
                task_id := a.task_id.orElse (fun _ => r1.task_id)
                cleanup_time := a.cleanup_time.orElse (fun _ => r1.cleanup_time)
                result := a.result.orElse (fun _ => r1.result) }
  { r2 with keyTtl := some (if ttlOf r < 0 then job_ttl else ttlOf r) }

/-! ### Concrete sample states used by witnesses and counterexamples -/

/-- The sample request of the spec's first scenario. -/
def req0 : MemeReq :=
  { personaPrompt := "a sarcastic cat", themePrompt := "Monday mornings",
    charLimit := 75, allowEmojis := false, reqKind := "single" }

/-- An empty store. -/
def emptySt : St := { jobs := fun _ => none, memes := fun _ => none, active := [] }

/-- A COMPLETED (terminal) job record. -/
def rComp : JobRecord :=
  { status := JOB_COMPLETED, created_at := some (some 0), keyTtl := some 100 }

/-- A store holding only the COMPLETED job `job-c`. -/
def sComp : St :=
  { jobs := fun k => if k = "job-c" then some rComp else none
    memes := fun _ => none, active := [] }

/-- A PROCESSING job record with 1 second of TTL remaining. -/
def rT : JobRecord :=
  { status := JOB_PROCESSING, created_at := some (some 0), keyTtl := some 1 }

/-- A store holding only `job-t`, whose key has 1 second of TTL left. -/
def sT : St :=
  { jobs := fun k => if k = "job-t" then some rT else none
    memes := fun _ => none, active := [] }

/-- A fresh PROCESSING record created at time 2000. -/
def rFresh : JobRecord :=
  { status := JOB_PROCESSING, created_at := some (some 2000), keyTtl := some 100 }

/-- A store whose in-flight index holds 150 entries, every record fresh:
the reaper cleans none of them, so the post-sweep count stays 150. -/
def sBusy : St :=
  { jobs := fun _ => some rFresh, memes := fun _ => none
    active := List.replicate 150 "x" }

/-- A PROCESSING job created at time 1000 (stale for `now = 4600` with
threshold 1800, matching the spec's reaper scenario). -/
def rStale : JobRecord :=
  { status := JOB_PROCESSING, created_at := some (some 1000), keyTtl := some 50 }

/-- A store with one stale in-flight job `p` and one in-flight id `gone`
whose record is missing. -/
def sReap : St :=
  { jobs := fun k => if k = "p" then some rStale else none
    memes := fun _ => none, active := ["p", "gone"] }

/-- An artifact with all required fields present. -/
def m0 : MemeRecord :=
  { imageUrl := some "u", mimeKind := some "single", memeId := some "job-1" }

/-- An artifact missing the required `memeId` field. -/
def mBad : MemeRecord := { imageUrl := some "u", mimeKind := some "single" }

/-! ### Helper lemmas about `update_job_status` -/

theorem srem_jobs (s : St) (id : String) : (srem s id).jobs = s.jobs := rfl

theorem update_jobs_ne (now : Int) (id status : String) (ad : Option AddData)
    (s : St) (k : String) (hk : k ≠ id) :
    ((update_job_status now id status ad s).2).jobs k = s.jobs k := by
  cases h : s.jobs id with
  | none => simp [update_job_status, h]
  | some r =>
    simp only [update_job_status, h]
    split <;> simp [srem, setexJob, hk]

theorem update_fst_true {s : St} {id : String} {r : JobRecord}
    (h : s.jobs id = some r) (now : Int) (status : String) (ad : Option AddData) :
    (update_job_status now id status ad s).1 = true := by
  simp [update_job_status, h]

theorem update_jobs_self (now : Int) (id status : String) (ad : Option AddData)
    (s : St) (r : JobRecord) (h : s.jobs id = some r) :
    (update_job_status now id status ad s).2.jobs id =
      some (updatedRecord now status ad r) := by
  cases ad <;>
    (simp only [update_job_status, h]
     split <;> simp [srem, setexJob, updatedRecord])

theorem updatedRecord_status (now : Int) (status : String) (ad : Option AddData)
    (r : JobRecord) : (updatedRecord now status ad r).status = status := by
  cases ad <;> rfl

theorem updatedRecord_histLen (now : Int) (status : String) (ad : Option AddData)
    (r : JobRecord) :
    (updatedRecord now status ad r).status_history.length =
      r.status_history.length + 1 := by
  cases ad <;> simp [updatedRecord]

theorem updatedRecord_keyTtl (now : Int) (status : String) (ad : Option AddData)
    (r : JobRecord) :
    (updatedRecord now status ad r).keyTtl =
      some (if ttlOf r < 0 then job_ttl else ttlOf r) := by
  cases ad <;> rfl

theorem update_active_sublist (now : Int) (id status : String)
    (ad : Option AddData) (s : St) :
    ((update_job_status now id status ad s).2).active.Sublist s.active := by
  cases h : s.jobs id with
  | none => simp [update_job_status, h]
  | some r =>
    simp only [update_job_status, h]
    split
    · exact List.filter_sublist _
    · exact List.Sublist.refl _

theorem update_terminal_not_mem (now : Int) (id status : String)
    (ad : Option AddData) (s : St) (r : JobRecord) (h : s.jobs id = some r)
    (hterm : status = JOB_COMPLETED ∨ status = JOB_FAILED) :
    id ∉ ((update_job_status now id status ad s).2).active := by
  simp only [update_job_status, h]
  split
  · simp [srem, setexJob, List.mem_filter]
  · next hc => exact absurd hterm hc

theorem update_histLen_le (now : Int) (id status : String) (ad : Option AddData)
    (s : St) (k : String) :
    histLen (s.jobs k) ≤ histLen (((update_job_status now id status ad s).2).jobs k) := by
  by_cases hk : k = id
  · subst hk
    cases h : s.jobs k with
    | none => simp [update_job_status, h]
    | some r =>
      rw [update_jobs_self now k status ad s r h]
      simp [histLen, updatedRecord_histLen]
  · rw [update_jobs_ne now id status ad s k hk]

/-! ### Helper lemmas about `cleanupStep` -/

theorem cleanupStep_jobs_ne (now maxAge : Int) (c : Nat) (s : St)
    (id k : String) (hk : k ≠ id) :
    ((cleanupStep now maxAge (c, s) id).2).jobs k = s.jobs k := by
  cases h : s.jobs id with
  | none => simp [cleanupStep, h, srem]
  | some r =>
    simp only [cleanupStep, h]
    split
    · exact update_jobs_ne now id JOB_FAILED _ s k hk
    · rfl

theorem cleanupStep_jobs_none (now maxAge : Int) (c : Nat) (s : St)
    (id k : String) (h : s.jobs k = none) :
    ((cleanupStep now maxAge (c, s) id).2).jobs k = none := by
  by_cases hk : k = id
  · subst hk
    simp [cleanupStep, h, srem]
  · rw [cleanupStep_jobs_ne now maxAge c s id k hk, h]

theorem cleanupStep_active_sublist (now maxAge : Int) (c : Nat) (s : St)
    (id : String) :
    ((cleanupStep now maxAge (c, s) id).2).active.Sublist s.active := by
  cases h : s.jobs id with
  | none =>
    simp only [cleanupStep, h, srem]
    exact List.filter_sublist _
  | some r =>
    simp only [cleanupStep, h]
    split
    · exact update_active_sublist now id JOB_FAILED _ s
    · exact List.Sublist.refl _

theorem cleanupStep_count (now maxAge : Int) (c : Nat) (s : St) (id : String) :
    (cleanupStep now maxAge (c, s) id).1 =
      c + (if isCleaned now maxAge s id then 1 else 0) := by
  cases h : s.jobs id with
  | none => simp [cleanupStep, isCleaned, h]
  | some r =>
    simp only [cleanupStep, isCleaned, h]
    split <;> simp_all

theorem cleanupStep_histLen_le (now maxAge : Int) (c : Nat) (s : St)
    (id k : String) :
    histLen (s.jobs k) ≤ histLen (((cleanupStep now maxAge (c, s) id).2).jobs k) := by
  cases h : s.jobs id with
  | none => simp [cleanupStep, h, srem]
  | some r =>
    simp only [cleanupStep, h]
    split
    · exact update_histLen_le now id JOB_FAILED _ s k
    · exact le_refl _

theorem cleanupStep_cleaned_not_mem (now maxAge : Int) (c : Nat) (s : St)
    (id : String) (hcl : isCleaned now maxAge s id = true) :
    id ∉ ((cleanupStep now maxAge (c, s) id).2).active := by
  cases h : s.jobs id with
  | none =>
    simp [cleanupStep, h, srem, List.mem_filter]
  | some r =>
    have hst : effCreated r < now - maxAge := by
      simpa [isCleaned, h] using hcl
    simp only [cleanupStep, h, if_pos hst]
    exact update_terminal_not_mem now id JOB_FAILED _ s r h (Or.inr rfl)

theorem cleanupStep_fresh (now maxAge : Int) (c : Nat) (s : St) (id : String)
    (hcl : isCleaned now maxAge s id = false) :
    cleanupStep now maxAge (c, s) id = (c, s) := by
  cases h : s.jobs id with
  | none => simp [isCleaned, h] at hcl
  | some r =>
    have hst : ¬ effCreated r < now - maxAge := by
      simpa [isCleaned, h] using hcl
    simp [cleanupStep, h, if_neg hst]

/-! ### Fold lemmas about `cleanup_stale_jobs` -/

theorem foldl_jobs_ne (now maxAge : Int) (L : List String) :
    ∀ (c : Nat) (s : St) (k : String), k ∉ L →
      ((L.foldl (cleanupStep now maxAge) (c, s)).2).jobs k = s.jobs k := by
  induction L with
  | nil => intro c s k _; rfl
  | cons x L ih =>
    intro c s k hk
    rw [List.foldl_cons]
    rcases hstep : cleanupStep now maxAge (c, s) x with ⟨c1, s1⟩
    have hne : k ≠ x := fun he => hk (he ▸ List.mem_cons_self x L)
    have hkL : k ∉ L := fun hm => hk (List.mem_cons_of_mem x hm)
    rw [ih c1 s1 k hkL]
    have hfr := cleanupStep_jobs_ne now maxAge c s x k hne
    rw [hstep] at hfr
    exact hfr

theorem foldl_active_sublist (now maxAge : Int) (L : List String) :
    ∀ (c : Nat) (s : St),
      ((L.foldl (cleanupStep now maxAge) (c, s)).2).active.Sublist s.active := by
  induction L with
  | nil => intro c s; exact List.Sublist.refl _
  | cons x L ih =>
    intro c s
    rw [List.foldl_cons]
    rcases hstep : cleanupStep now maxAge (c, s) x with ⟨c1, s1⟩
    have hsub := cleanupStep_active_sublist now maxAge c s x
    rw [hstep] at hsub
    exact (ih c1 s1).trans hsub

theorem foldl_histLen_le (now maxAge : Int) (L : List String) :
    ∀ (c : Nat) (s : St) (k : String),
      histLen (s.jobs k) ≤ histLen (((L.foldl (cleanupStep now maxAge) (c, s)).2).jobs k) := by
  induction L with
  | nil => intro c s k; exact le_refl _
  | cons x L ih =>
    intro c s k
    rw [List.foldl_cons]
    rcases hstep : cleanupStep now maxAge (c, s) x with ⟨c1, s1⟩
    have hst := cleanupStep_histLen_le now maxAge c s x k
    rw [hstep] at hst
    exact hst.trans (ih c1 s1 k)

theorem foldl_count (now maxAge : Int) (L : List String) :
    ∀ (c : Nat) (s : St), L.Nodup →
      (L.foldl (cleanupStep now maxAge) (c, s)).1 =
        c + L.countP (isCleaned now maxAge s) := by
  induction L with
  | nil => intro c s _; simp
  | cons x L ih =>
    intro c s hnd
    obtain ⟨hx, hnd'⟩ := List.nodup_cons.mp hnd
    rw [List.foldl_cons]
    rcases hstep : cleanupStep now maxAge (c, s) x with ⟨c1, s1⟩
    rw [ih c1 s1 hnd']
    have hc1 : c1 = c + (if isCleaned now maxAge s x then 1 else 0) := by
      have hcnt := cleanupStep_count now maxAge c s x
      rw [hstep] at hcnt
      exact hcnt
    have hcong : L.countP (isCleaned now maxAge s1) =
        L.countP (isCleaned now maxAge s) := by
      apply List.countP_congr
      intro a ha
      have hne : a ≠ x := fun he => hx (he ▸ ha)
      have hj : s1.jobs a = s.jobs a := by
        have hfr := cleanupStep_jobs_ne now maxAge c s x a hne
        rw [hstep] at hfr
        exact hfr
      simp [isCleaned, hj]
    rw [hcong, List.countP_cons, hc1]
    omega

theorem foldl_jobs_none (now maxAge : Int) (L : List String) :
    ∀ (c : Nat) (s : St) (k : String), s.jobs k = none →
      ((L.foldl (cleanupStep now maxAge) (c, s)).2).jobs k = none := by
  induction L with
  | nil => intro c s k h; exact h
  | cons x L ih =>
    intro c s k h
    rw [List.foldl_cons]
    rcases hstep : cleanupStep now maxAge (c, s) x with ⟨c1, s1⟩
    have h1 : s1.jobs k = none := by
      have hz := cleanupStep_jobs_none now maxAge c s x k h
      rw [hstep] at hz
      exact hz
    exact ih c1 s1 k h1

theorem foldl_absent (now maxAge : Int) (L : List String) :
    ∀ (c : Nat) (s : St) (id : String), L.Nodup → id ∈ L → s.jobs id = none →
      id ∉ ((L.foldl (cleanupStep now maxAge) (c, s)).2).active ∧
      ((L.foldl (cleanupStep now maxAge) (c, s)).2).jobs id = none := by
  induction L with
  | nil => intro c s id _ hm _; exact absurd hm (List.not_mem_nil id)
  | cons x L ih =>
    intro c s id hnd hm habs
    obtain ⟨hx, hnd'⟩ := List.nodup_cons.mp hnd
    rw [List.foldl_cons]
    rcases hstep : cleanupStep now maxAge (c, s) x with ⟨c1, s1⟩
    by_cases heq : id = x
    · subst heq
      have hnm : id ∉ s1.active := by
        have hcl : isCleaned now maxAge s id = true := by simp [isCleaned, habs]
        have hz := cleanupStep_cleaned_not_mem now maxAge c s id hcl
        rw [hstep] at hz
        exact hz
      refine ⟨fun hmem => hnm ((foldl_active_sublist now maxAge L c1 s1).subset hmem), ?_⟩
      have hj1 : s1.jobs id = none := by
        have hz := cleanupStep_jobs_none now maxAge c s id id habs
        rw [hstep] at hz
        exact hz
      rw [foldl_jobs_ne now maxAge L c1 s1 id hx]
      exact hj1
    · have hmL : id ∈ L := by
        rcases List.mem_cons.mp hm with h | h
        · exact absurd h heq
        · exact h
      have hj1 : s1.jobs id = none := by
        have hz := cleanupStep_jobs_ne now maxAge c s x id heq
        rw [hstep] at hz
        rw [hz]
        exact habs
      exact ih c1 s1 id hnd' hmL hj1

theorem foldl_stale (now maxAge : Int) (L : List String) :
    ∀ (c : Nat) (s : St) (id : String) (r : JobRecord), L.Nodup → id ∈ L →
      s.jobs id = some r → effCreated r < now - maxAge →
      id ∉ ((L.foldl (cleanupStep now maxAge) (c, s)).2).active ∧
      ((L.foldl (cleanupStep now maxAge) (c, s)).2).jobs id =
        some (updatedRecord now JOB_FAILED (some (reaperData now)) r) := by
  induction L with
  | nil => intro c s id r _ hm _ _; exact absurd hm (List.not_mem_nil id)
  | cons x L ih =>
    intro c s id r hnd hm hrec hstale
    obtain ⟨hx, hnd'⟩ := List.nodup_cons.mp hnd
    rw [List.foldl_cons]
    rcases hstep : cleanupStep now maxAge (c, s) x with ⟨c1, s1⟩
    by_cases heq : id = x
    · subst heq
      have hcl : isCleaned now maxAge s id = true := by
        simp [isCleaned, hrec, hstale]
      have hnm : id ∉ s1.active := by
        have hz := cleanupStep_cleaned_not_mem now maxAge c s id hcl
        rw [hstep] at hz
        exact hz
      have hstepval : cleanupStep now maxAge (c, s) id =
          (c + 1, (update_job_status now id JOB_FAILED (some (reaperData now)) s).2) := by
        simp [cleanupStep, hrec, if_pos hstale]
      have hs1 : s1 = (update_job_status now id JOB_FAILED (some (reaperData now)) s).2 := by
        have h12 := hstepval.symm.trans hstep
        exact ((Prod.mk.injEq _ _ _ _).mp h12).2.symm
      refine ⟨fun hmem => hnm ((foldl_active_sublist now maxAge L c1 s1).subset hmem), ?_⟩
      rw [foldl_jobs_ne now maxAge L c1 s1 id hx, hs1]
      exact update_jobs_self now id JOB_FAILED (some (reaperData now)) s r hrec
    · have hmL : id ∈ L := by
        rcases List.mem_cons.mp hm with h | h
        · exact absurd h heq
        · exact h
      have hj1 : s1.jobs id = some r := by
        have hz := cleanupStep_jobs_ne now maxAge c s x id heq
        rw [hstep] at hz
        rw [hz]
        exact hrec
      exact ih c1 s1 id r hnd' hmL hj1 hstale

theorem foldl_survivor (now maxAge : Int) (L : List String) :
    ∀ (c : Nat) (s : St) (id : String), L.Nodup →
      id ∈ ((L.foldl (cleanupStep now maxAge) (c, s)).2).active →
      id ∈ s.active ∧
      ((L.foldl (cleanupStep now maxAge) (c, s)).2).jobs id = s.jobs id ∧
      (id ∈ L → isCleaned now maxAge s id = false) := by
  induction L with
  | nil =>
    intro c s id _ hm
    exact ⟨hm, rfl, fun h => absurd h (List.not_mem_nil id)⟩
  | cons x L ih =>
    intro c s id hnd hm
    obtain ⟨hx, hnd'⟩ := List.nodup_cons.mp hnd
    rw [List.foldl_cons] at hm ⊢
    rcases hstep : cleanupStep now maxAge (c, s) x with ⟨c1, s1⟩
    rw [hstep] at hm
    obtain ⟨h1, h2, h3⟩ := ih c1 s1 id hnd' hm
    have hsub : s1.active.Sublist s.active := by
      have hz := cleanupStep_active_sublist now maxAge c s x
      rw [hstep] at hz
      exact hz
    by_cases heq : id = x
    · subst heq
      by_cases hcl : isCleaned now maxAge s id = true
      · exfalso
        have hnm : id ∉ s1.active := by
          have hz := cleanupStep_cleaned_not_mem now maxAge c s id hcl
          rw [hstep] at hz
          exact hz
        exact hnm h1
      · have hclF : isCleaned now maxAge s id = false := by
          simpa using hcl
        have hfr := cleanupStep_fresh now maxAge c s id hclF
        have hs1 : s1 = s := by
          have h12 := hfr.symm.trans hstep
          exact ((Prod.mk.injEq _ _ _ _).mp h12).2.symm
        subst hs1
        exact ⟨h1, h2, fun _ => hclF⟩
    · have hj : s1.jobs id = s.jobs id := by
        have hz := cleanupStep_jobs_ne now maxAge c s x id heq
        rw [hstep] at hz
        exact hz
      refine ⟨hsub.subset h1, h2.trans hj, fun hmem => ?_⟩
      have hmL : id ∈ L := by
        rcases List.mem_cons.mp hmem with h | h
        · exact absurd h heq
        · exact h
      rw [← h3 hmL]
      simp [isCleaned, hj]

theorem sadd_jobs (s : St) (id : String) : (sadd s id).jobs = s.jobs := by
  unfold sadd
  split <;> rfl

theorem add_job_jobs (now : Int) (id : String) (req : MemeReq) (s : St) :
    (add_job true now id req s).2.jobs id = some
      { status := JOB_QUEUED, created_at := some (some now)
        status_history := [{ status := JOB_QUEUED, timestamp := now,
                             message := some "Job added to queue" }]
        request := some req, keyTtl := some job_ttl } := by
  simp only [add_job, if_pos]
  rw [sadd_jobs]
  simp [setexJob]

/-! ### Claims -/

/-- Claim C8: a status-transition operation on a job id whose record is
absent from the store returns failure and leaves the entire state
unchanged (no record written, in-flight index untouched), for every
target status including the terminal ones. -/
theorem C8_update_missing_job (now : Int) (id status : String)
    (ad : Option AddData) (s : St) (h : s.jobs id = none) :
    update_job_status now id status ad s = (false, s) := by
  simp [update_job_status, h]

/-- Claim C8 witness: at the empty store, a FAILED transition on the
unknown id `job-1` returns `(false, emptySt)`. -/
theorem C8_update_missing_job_witness :
    emptySt.jobs "job-1" = none ∧
    update_job_status 5 "job-1" JOB_FAILED none emptySt = (false, emptySt) :=
  ⟨rfl, C8_update_missing_job 5 "job-1" JOB_FAILED none emptySt rfl⟩

/-- Claim C4 counterexample: a record whose key has 1 second of
remaining TTL is written back with TTL exactly 1 — strictly below every
duration in `QUEUE_CONFIG` (`default_timeout` = 300, `job_ttl` = 86400),
so no configured minimum floor is applied, contradicting the claim's
"never less than the configured minimum". -/
theorem C4_ttl_counterexample :
    ((update_job_status 5 "job-t" JOB_PROCESSING none sT).2.jobs "job-t").map
        JobRecord.keyTtl = some (some 1) ∧
    (1 : Int) < default_timeout ∧ (1 : Int) < job_ttl := by
  refine ⟨?_, by decide, by decide⟩
  rfl

/-- Claim C4 (amended): for every successful status-transition on an
existing record, the TTL written back is exactly the key's remaining TTL
when that is nonnegative — no minimum floor — and defaults to `job_ttl`
(24 hours) when the key reports no TTL (a negative reading). -/
theorem C4_ttl_refresh (now : Int) (id status : String) (ad : Option AddData)
    (s : St) (r : JobRecord) (h : s.jobs id = some r) :
    (update_job_status now id status ad s).1 = true ∧
    ∃ r', (update_job_status now id status ad s).2.jobs id = some r' ∧
      r'.keyTtl = some (if ttlOf r < 0 then job_ttl else ttlOf r) :=
  ⟨update_fst_true h now status ad,
   updatedRecord now status ad r,
   update_jobs_self now id status ad s r h,
   updatedRecord_keyTtl now status ad r⟩

/-- Claim C4 witness: the amended statement applied to the store `sT`
(remaining TTL 1): the write-back TTL is 1. -/
theorem C4_ttl_refresh_witness :
    sT.jobs "job-t" = some rT ∧
    ((update_job_status 5 "job-t" JOB_PROCESSING none sT).1 = true ∧
     ∃ r', (update_job_status 5 "job-t" JOB_PROCESSING none sT).2.jobs "job-t" = some r' ∧
       r'.keyTtl = some (if ttlOf rT < 0 then job_ttl else ttlOf rT)) :=
  ⟨rfl, C4_ttl_refresh 5 "job-t" JOB_PROCESSING none sT rT rfl⟩

/-- Claim C2 counterexample: `update_job_status` transitions the
COMPLETED job `job-c` to PROCESSING and reports success.  The operation
is available to every caller and this transition (out of COMPLETED) is
not the retry path's re-opening of a FAILED job, so terminal states are
not immutable outside the retry path as the claim states. -/
theorem C2_terminal_counterexample :
    (get_job_status sComp "job-c").map JobRecord.status = some JOB_COMPLETED ∧
    (update_job_status 5 "job-c" JOB_PROCESSING none sComp).1 = true ∧
    ((update_job_status 5 "job-c" JOB_PROCESSING none sComp).2.jobs "job-c").map
        JobRecord.status = some JOB_PROCESSING := by
  refine ⟨rfl, ?_, ?_⟩ <;> rfl

/-- Claim C2 (amended): `update_job_status` imposes no guard on the
current status — every transition on an existing record succeeds and
sets the requested status, for any caller, including transitions out of
COMPLETED or FAILED; and `status_history` length never decreases, under
`update_job_status` at every key and under a reaper sweep at every
key. -/
theorem C2_transitions (now : Int) (id status : String) (ad : Option AddData)
    (s : St) :
    (∀ r, s.jobs id = some r →
       (update_job_status now id status ad s).1 = true ∧
       ∃ r', (update_job_status now id status ad s).2.jobs id = some r' ∧
         r'.status = status) ∧
    (∀ k, histLen (s.jobs k) ≤
       histLen ((update_job_status now id status ad s).2.jobs k)) ∧
    (∀ maxAge k, histLen (s.jobs k) ≤
       histLen ((cleanup_stale_jobs now maxAge s).2.jobs k)) :=
  ⟨fun r h =>
    ⟨update_fst_true h now status ad,
     updatedRecord now status ad r,
     update_jobs_self now id status ad s r h,
     updatedRecord_status now status ad r⟩,
   fun k => update_histLen_le now id status ad s k,
   fun maxAge k => foldl_histLen_le now maxAge s.active 0 s k⟩

/-- Claim C2 witness: the amended statement applied at the COMPLETED
job `job-c`: the PROCESSING transition succeeds and history lengths do
not decrease. -/
theorem C2_transitions_witness :
    sComp.jobs "job-c" = some rComp ∧
    ((update_job_status 5 "job-c" JOB_PROCESSING none sComp).1 = true ∧
     ∃ r', (update_job_status 5 "job-c" JOB_PROCESSING none sComp).2.jobs "job-c" = some r' ∧
       r'.status = JOB_PROCESSING) ∧
    histLen (sComp.jobs "job-c") ≤
      histLen ((update_job_status 5 "job-c" JOB_PROCESSING none sComp).2.jobs "job-c") ∧
    histLen (sComp.jobs "job-c") ≤
      histLen ((cleanup_stale_jobs 5 1800 sComp).2.jobs "job-c") :=
  ⟨rfl,
   (C2_transitions 5 "job-c" JOB_PROCESSING none sComp).1 rComp rfl,
   (C2_transitions 5 "job-c" JOB_PROCESSING none sComp).2.1 "job-c",
   (C2_transitions 5 "job-c" JOB_PROCESSING none sComp).2.2 1800 "job-c"⟩

/-- Claim C10: a failing in-flight-count read returns 0 instead of an
error, so an admission decision taken during a store outage sees count 0
and never rejects as busy. -/
theorem C10_count_read_failure (putOk : Bool) (now : Int)
    (jobId taskId : String) (req : MemeReq) (s : St) :
    get_queue_length true s = 0 ∧
    (generate_meme_endpoint true putOk now jobId taskId req s).1.statusCode ≠ 503 := by
  refine ⟨rfl, ?_⟩
  unfold generate_meme_endpoint
  rw [if_neg (by simp [get_queue_length])]
  cases putOk <;> simp [add_job]

/-- Claim C10 witness: with the count read failing over the store that
holds 150 in-flight jobs, the endpoint still sees count 0 and does not
answer 503. -/
theorem C10_count_read_failure_witness :
    get_queue_length true sBusy = 0 ∧
    (generate_meme_endpoint true true 2000 "job-1" "task-1" req0 sBusy).1.statusCode ≠ 503 :=
  C10_count_read_failure true 2000 "job-1" "task-1" req0 sBusy

/-- Claim C3: after the opportunistic reaper sweep, the endpoint
rejects with the busy signal (503) exactly when the re-read in-flight
count exceeds 100; on rejection nothing is dispatched, the response
state is the post-sweep state, and no job record is created (every id
absent before the call is still absent). -/
theorem C3_admission_control (countFails putOk : Bool) (now : Int)
    (jobId taskId : String) (req : MemeReq) (s : St) :
    ((generate_meme_endpoint countFails putOk now jobId taskId req s).1.statusCode = 503 ↔
       get_queue_length countFails (cleanup_stale_jobs now 1800 s).2 > 100) ∧
    (get_queue_length countFails (cleanup_stale_jobs now 1800 s).2 > 100 →
       (generate_meme_endpoint countFails putOk now jobId taskId req s).1.dispatched = false ∧
       (generate_meme_endpoint countFails putOk now jobId taskId req s).2 =
         (cleanup_stale_jobs now 1800 s).2 ∧
       ∀ k, s.jobs k = none →
         (generate_meme_endpoint countFails putOk now jobId taskId req s).2.jobs k = none) := by
  by_cases hq : get_queue_length countFails (cleanup_stale_jobs now 1800 s).2 > 100
  · have hrun : generate_meme_endpoint countFails putOk now jobId taskId req s =
        ({ statusCode := 503, job_id := none, dispatched := false },
         (cleanup_stale_jobs now 1800 s).2) := by
      unfold generate_meme_endpoint
      rw [if_pos hq]
    refine ⟨⟨fun _ => hq, fun _ => by rw [hrun]⟩, fun _ => ?_⟩
    refine ⟨by rw [hrun], by rw [hrun], fun k hk => ?_⟩
    rw [hrun]
    exact foldl_jobs_none now 1800 s.active 0 s k hk
  · have hcode : (generate_meme_endpoint countFails putOk now jobId taskId req s).1.statusCode =
        (if putOk then 200 else 500) := by
      unfold generate_meme_endpoint
      rw [if_neg hq]
      cases putOk <;> rfl
    refine ⟨⟨fun h503 => ?_, fun h => absurd h hq⟩, fun h => absurd h hq⟩
    rw [hcode] at h503
    cases putOk <;> simp at h503

set_option maxRecDepth 4000 in
/-- Claim C3 witness: a store pre-seeded with 150 fresh in-flight jobs
(none reaped) is rejected as busy with nothing dispatched and no record
created. -/
theorem C3_admission_control_witness :
    get_queue_length false (cleanup_stale_jobs 2000 1800 sBusy).2 > 100 ∧
    (generate_meme_endpoint false true 2000 "job-1" "task-1" req0 sBusy).1.statusCode = 503 ∧
    (generate_meme_endpoint false true 2000 "job-1" "task-1" req0 sBusy).1.dispatched = false ∧
    ∀ k, sBusy.jobs k = none →
      (generate_meme_endpoint false true 2000 "job-1" "task-1" req0 sBusy).2.jobs k = none := by
  have hq : get_queue_length false (cleanup_stale_jobs 2000 1800 sBusy).2 > 100 := by decide
  exact ⟨hq,
    (C3_admission_control false true 2000 "job-1" "task-1" req0 sBusy).1.mpr hq,
    ((C3_admission_control false true 2000 "job-1" "task-1" req0 sBusy).2 hq).1,
    ((C3_admission_control false true 2000 "job-1" "task-1" req0 sBusy).2 hq).2.2⟩

/-- Claim C9: when the initial job-record write fails, the endpoint
answers with the 500 failure response, dispatches nothing to the queue,
leaves the state at the post-sweep state, and writes no record for the
job id. -/
theorem C9_store_failure_aborts (countFails : Bool) (now : Int)
    (jobId taskId : String) (req : MemeReq) (s : St)
    (hq : ¬ get_queue_length countFails (cleanup_stale_jobs now 1800 s).2 > 100) :
    (generate_meme_endpoint countFails false now jobId taskId req s).1.statusCode = 500 ∧
    (generate_meme_endpoint countFails false now jobId taskId req s).1.dispatched = false ∧
    (generate_meme_endpoint countFails false now jobId taskId req s).2 =
      (cleanup_stale_jobs now 1800 s).2 ∧
    (s.jobs jobId = none →
      (generate_meme_endpoint countFails false now jobId taskId req s).2.jobs jobId = none) := by
  have hrun : generate_meme_endpoint countFails false now jobId taskId req s =
      ({ statusCode := 500, job_id := none, dispatched := false },
       (cleanup_stale_jobs now 1800 s).2) := by
    unfold generate_meme_endpoint
    rw [if_neg hq]
    rfl
  refine ⟨by rw [hrun], by rw [hrun], by rw [hrun], fun h => ?_⟩
  rw [hrun]
  exact foldl_jobs_none now 1800 s.active 0 s jobId h

/-- Claim C9 witness: on the empty store with the record write failing,
the endpoint answers 500, dispatches nothing and records nothing. -/
theorem C9_store_failure_aborts_witness :
    ¬ get_queue_length false (cleanup_stale_jobs 10 1800 emptySt).2 > 100 ∧
    ((generate_meme_endpoint false false 10 "job-1" "task-1" req0 emptySt).1.statusCode = 500 ∧
     (generate_meme_endpoint false false 10 "job-1" "task-1" req0 emptySt).1.dispatched = false ∧
     (generate_meme_endpoint false false 10 "job-1" "task-1" req0 emptySt).2 =
       (cleanup_stale_jobs 10 1800 emptySt).2 ∧
     (emptySt.jobs "job-1" = none →
       (generate_meme_endpoint false false 10 "job-1" "task-1" req0 emptySt).2.jobs "job-1" = none)) :=
  ⟨by decide, C9_store_failure_aborts false 10 "job-1" "task-1" req0 emptySt (by decide)⟩

/-- Claim C1 counterexample: at the empty store, an accepted submission
(busy check passes, record write succeeds) leaves a job record whose
`status_history` has length 2, not 1 — `add_job` writes the creation
entry, then the endpoint's `update_job_status(job_id, QUEUED, task_id)`
appends a second QUEUED entry before the response returns. -/
theorem C1_history_counterexample :
    (generate_meme_endpoint false true 10 "job-1" "task-1" req0 emptySt).1.statusCode = 200 ∧
    histLen (get_job_status
      (generate_meme_endpoint false true 10 "job-1" "task-1" req0 emptySt).2 "job-1") = 2 := by
  constructor <;> rfl

/-- Claim C1 (amended): for every accepted submission (busy check
passes, record write succeeds), reading the job record immediately
after acceptance returns status QUEUED with a `status_history` of
length exactly 2. -/
theorem C1_accepted_submission (countFails : Bool) (now : Int)
    (jobId taskId : String) (req : MemeReq) (s : St)
    (hq : get_queue_length countFails (cleanup_stale_jobs now 1800 s).2 ≤ 100) :
    (generate_meme_endpoint countFails true now jobId taskId req s).1.statusCode = 200 ∧
    ∃ r, get_job_status
        (generate_meme_endpoint countFails true now jobId taskId req s).2 jobId = some r ∧
      r.status = JOB_QUEUED ∧ r.status_history.length = 2 := by
  have hq' : ¬ get_queue_length countFails (cleanup_stale_jobs now 1800 s).2 > 100 := by
    omega
  unfold generate_meme_endpoint
  rw [if_neg hq']
  refine ⟨rfl, ?_⟩
  show ∃ r, get_job_status
      (update_job_status now jobId JOB_QUEUED (some { task_id := some taskId })
        (add_job true now jobId req (cleanup_stale_jobs now 1800 s).2).2).2 jobId = some r ∧
    r.status = JOB_QUEUED ∧ r.status_history.length = 2
  have hj := add_job_jobs now jobId req (cleanup_stale_jobs now 1800 s).2
  refine ⟨_, update_jobs_self now jobId JOB_QUEUED (some { task_id := some taskId })
      (add_job true now jobId req (cleanup_stale_jobs now 1800 s).2).2 _ hj,
    updatedRecord_status now JOB_QUEUED _ _, ?_⟩
  rw [updatedRecord_histLen]
  rfl

/-- Claim C1 witness: the amended statement at the empty store: status
QUEUED, history length 2. -/
theorem C1_accepted_submission_witness :
    get_queue_length false (cleanup_stale_jobs 10 1800 emptySt).2 ≤ 100 ∧
    ((generate_meme_endpoint false true 10 "job-1" "task-1" req0 emptySt).1.statusCode = 200 ∧
     ∃ r, get_job_status
         (generate_meme_endpoint false true 10 "job-1" "task-1" req0 emptySt).2 "job-1" = some r ∧
       r.status = JOB_QUEUED ∧ r.status_history.length = 2) :=
  ⟨by decide, C1_accepted_submission false 10 "job-1" "task-1" req0 emptySt (by decide)⟩

/-- Claim C5: an artifact with all required fields stored via
`store_meme_data` is retrievable via `get_meme_data` with identical
`imageUrl`, `type` and `memeId`; an artifact missing `memeId` is
rejected (failure, no write) and — the key being previously absent — a
subsequent read reports absent. -/
theorem C5_artifact_roundtrip (now : Int) (mid : String) (m : MemeRecord)
    (ttlArg : Option Int) (s : St) :
    (m.imageUrl.isSome ∧ m.mimeKind.isSome ∧ m.memeId.isSome →
       (store_meme_data now mid m ttlArg s).1 = true ∧
       ∃ m', get_meme_data (store_meme_data now mid m ttlArg s).2 mid = some m' ∧
         m'.imageUrl = m.imageUrl ∧ m'.mimeKind = m.mimeKind ∧ m'.memeId = m.memeId) ∧
    (m.memeId = none →
       store_meme_data now mid m ttlArg s = (false, s) ∧
       (s.memes mid = none → get_meme_data s mid = none)) := by
  constructor
  · rintro ⟨h1, h2, h3⟩
    cases ttlArg with
    | none =>
      have hreq : hasRequiredFields
          { m with created_at := some now, ttlField := some result_ttl } = true := by
        simp [hasRequiredFields, h1, h2, h3]
      refine ⟨by simp [store_meme_data, hreq], ?_⟩
      have hget : get_meme_data (store_meme_data now mid m none s).2 mid =
          some { m with created_at := some now, ttlField := some result_ttl } := by
        simp [store_meme_data, hreq, get_meme_data]
      exact ⟨_, hget, rfl, rfl, rfl⟩
    | some v =>
      have hreq : hasRequiredFields
          { m with created_at := some now, ttlField := some v } = true := by
        simp [hasRequiredFields, h1, h2, h3]
      refine ⟨by simp [store_meme_data, hreq], ?_⟩
      have hget : get_meme_data (store_meme_data now mid m (some v) s).2 mid =
          some { m with created_at := some now, ttlField := some v } := by
        simp [store_meme_data, hreq, get_meme_data]
      exact ⟨_, hget, rfl, rfl, rfl⟩
  · intro h3
    refine ⟨?_, fun hmem => by simp [get_meme_data, hmem]⟩
    cases ttlArg with
    | none =>
      have hreq : hasRequiredFields
          { m with created_at := some now, ttlField := some result_ttl } = false := by
        simp [hasRequiredFields, h3]
      simp [store_meme_data, hreq]
    | some v =>
      have hreq : hasRequiredFields
          { m with created_at := some now, ttlField := some v } = false := by
        simp [hasRequiredFields, h3]
      simp [store_meme_data, hreq]

/-- Claim C5 witness: the artifact `m0` (all fields) round-trips; the
artifact `mBad` (no `memeId`) is rejected and stays absent. -/
theorem C5_artifact_roundtrip_witness :
    (m0.imageUrl.isSome ∧ m0.mimeKind.isSome ∧ m0.memeId.isSome) ∧
    ((store_meme_data 7 "job-1" m0 none emptySt).1 = true ∧
     ∃ m', get_meme_data (store_meme_data 7 "job-1" m0 none emptySt).2 "job-1" = some m' ∧
       m'.imageUrl = m0.imageUrl ∧ m'.mimeKind = m0.mimeKind ∧ m'.memeId = m0.memeId) ∧
    mBad.memeId = none ∧
    (store_meme_data 7 "m2" mBad none emptySt = (false, emptySt) ∧
     (emptySt.memes "m2" = none → get_meme_data emptySt "m2" = none)) :=
  ⟨⟨by decide, by decide, by decide⟩,
   (C5_artifact_roundtrip 7 "job-1" m0 none emptySt).1 ⟨by decide, by decide, by decide⟩,
   rfl,
   (C5_artifact_roundtrip 7 "m2" mBad none emptySt).2 rfl⟩

/-- Claim C6: in one reaper sweep over a duplicate-free in-flight
index, every id whose record is absent is removed from the index and
counted; every id whose record's effective `created_at` (unparseable →
minimal, missing → year-2000 default) is older than `now - threshold`
is transitioned to FAILED with error "Job timed out", its history
extended, and removed from the index; and the sweep returns the count
of cleaned ids. -/
theorem C6_reaper_sweep (now maxAge : Int) (s : St) (hnd : s.active.Nodup) :
    (cleanup_stale_jobs now maxAge s).1 = s.active.countP (isCleaned now maxAge s) ∧
    ∀ id ∈ s.active,
      (s.jobs id = none →
        id ∉ (cleanup_stale_jobs now maxAge s).2.active ∧
        (cleanup_stale_jobs now maxAge s).2.jobs id = none) ∧
      (∀ r, s.jobs id = some r → effCreated r < now - maxAge →
        id ∉ (cleanup_stale_jobs now maxAge s).2.active ∧
        ∃ r', (cleanup_stale_jobs now maxAge s).2.jobs id = some r' ∧
          r'.status = JOB_FAILED ∧ r'.error = some "Job timed out" ∧
          r'.status_history.length = r.status_history.length + 1) := by
  refine ⟨?_, fun id hid => ⟨fun habs => ?_, fun r hrec hstale => ?_⟩⟩
  · have hcnt := foldl_count now maxAge s.active 0 s hnd
    simpa [cleanup_stale_jobs] using hcnt
  · exact foldl_absent now maxAge s.active 0 s id hnd hid habs
  · obtain ⟨hnm, hjobs⟩ := foldl_stale now maxAge s.active 0 s id r hnd hid hrec hstale
    refine ⟨hnm, updatedRecord now JOB_FAILED (some (reaperData now)) r, hjobs,
      updatedRecord_status now JOB_FAILED _ r, ?_,
      updatedRecord_histLen now JOB_FAILED _ r⟩
    simp [updatedRecord, reaperData, Option.orElse]

/-- Claim C6 witness: the spec's scenario — a PROCESSING job `p` 3600
seconds old with threshold 1800 is failed with "Job timed out" and
removed from the index, the record-less id `gone` is removed, and the
sweep reports 2 cleaned. -/
theorem C6_reaper_sweep_witness :
    sReap.active.Nodup ∧
    ((cleanup_stale_jobs 4600 1800 sReap).1 =
       sReap.active.countP (isCleaned 4600 1800 sReap) ∧
     ∀ id ∈ sReap.active,
       (sReap.jobs id = none →
         id ∉ (cleanup_stale_jobs 4600 1800 sReap).2.active ∧
         (cleanup_stale_jobs 4600 1800 sReap).2.jobs id = none) ∧
       (∀ r, sReap.jobs id = some r → effCreated r < 4600 - 1800 →
         id ∉ (cleanup_stale_jobs 4600 1800 sReap).2.active ∧
         ∃ r', (cleanup_stale_jobs 4600 1800 sReap).2.jobs id = some r' ∧
           r'.status = JOB_FAILED ∧ r'.error = some "Job timed out" ∧
           r'.status_history.length = r.status_history.length + 1)) :=
  ⟨by decide, C6_reaper_sweep 4600 1800 sReap (by decide)⟩

/-- Claim C7: running the stale-job reaper twice in immediate
succession (same clock reading, no additions in between), over a
duplicate-free in-flight index, cleans 0 jobs on the second call. -/
theorem C7_reaper_idempotent (now maxAge : Int) (s : St) (hnd : s.active.Nodup) :
    (cleanup_stale_jobs now maxAge (cleanup_stale_jobs now maxAge s).2).1 = 0 := by
  have hsub : ((cleanup_stale_jobs now maxAge s).2).active.Sublist s.active :=
    foldl_active_sublist now maxAge s.active 0 s
  have hnd1 : ((cleanup_stale_jobs now maxAge s).2).active.Nodup :=
    List.Nodup.sublist hsub hnd
  have hcnt := foldl_count now maxAge ((cleanup_stale_jobs now maxAge s).2).active 0
      ((cleanup_stale_jobs now maxAge s).2) hnd1
  have hzero : ((cleanup_stale_jobs now maxAge s).2).active.countP
      (isCleaned now maxAge ((cleanup_stale_jobs now maxAge s).2)) = 0 := by
    rw [List.countP_eq_zero]
    intro id hid
    obtain ⟨hmem, hjobs, hcl⟩ := foldl_survivor now maxAge s.active 0 s id hnd hid
    have heq : isCleaned now maxAge ((cleanup_stale_jobs now maxAge s).2) id =
        isCleaned now maxAge s id := by
      unfold isCleaned
      rw [show ((cleanup_stale_jobs now maxAge s).2).jobs id = s.jobs id from hjobs]
    rw [heq, hcl hmem]
    simp
  calc (cleanup_stale_jobs now maxAge (cleanup_stale_jobs now maxAge s).2).1
      = 0 + ((cleanup_stale_jobs now maxAge s).2).active.countP
          (isCleaned now maxAge ((cleanup_stale_jobs now maxAge s).2)) := hcnt
    _ = 0 := by rw [hzero]

/-- Claim C7 witness: after the sweep that cleans the two jobs of
`sReap`, an immediate second sweep cleans 0. -/
theorem C7_reaper_idempotent_witness :
    sReap.active.Nodup ∧
    (cleanup_stale_jobs 4600 1800 (cleanup_stale_jobs 4600 1800 sReap).2).1 = 0 :=
  ⟨by decide, C7_reaper_idempotent 4600 1800 sReap (by decide)⟩

end ChubbyMeme
